import Mathlib

/-!
Verification of the go-metar decoding/formatting core (`metar/formatter.go`,
the TAF-enabled formatter, plus the data model of `metar/client.go`).

Modelling conventions (shallow embedding):
* Go strings are modelled as `List Char` (all inputs of interest are text);
  string literals enter through `lit`.
* Go `float64` fields are modelled as exact rationals `ℚ`; the `fmt` verbs
  `%d`, `%.0f` (round half to even) and `%.2f` are implemented explicitly.
* Go `any`-typed JSON fields (`wdir`, `visib`) are modelled by the variant
  `GoVal`: a JSON string, a JSON number, or anything else (`null` stands for
  nil / absent / any unexpected dynamic type).
* `lipgloss` styling (colours, bold, box border) is an opaque passthrough:
  every `Render` call is the identity on the text, per the spec's
  "opaque style application" external interface.  Claims about the text
  wrapped in the box are stated on the pre-box string.
* `time.Unix(t,0).UTC()` together with the layouts "02 Jan 2006 15:04",
  "02 Jan 15:04", "Mon" and "15:04" is modelled with the standard
  proleptic-Gregorian civil-from-days conversion on `Int` (floor division),
  which is the documented semantics of Go's time package for UTC.
-/

namespace GoMetar

/-- Go strings are byte/char sequences; we model them as `List Char`. -/
abbrev Str := List Char

/-- Embed a Lean string literal as a `Str`. -/
def lit (x : String) : Str := x.data

/-- The newline character appended by the formatter's `WriteString` calls. -/
def nlChar : Char := '\n'

/-- Go `strings.Join` / joining accumulated parts with a separator. -/
def joinStr (sep : Str) : List Str → Str
  | [] => []
  | [x] => x
  | x :: xs => x ++ sep ++ joinStr sep xs

/-- Go `fmt.Sprintf("%-Ns", x)`: left-justify, pad on the right with spaces
to width `w`. -/
def padRightStr (x : Str) (w : Nat) : Str := x ++ List.replicate (w - x.length) ' '

/-- Decimal digit character for `n < 10`. -/
def digitChar (n : Nat) : Char := Char.ofNat (48 + n)

/-- Accumulator-style decimal rendering of a natural number (low digit pushed
onto `acc` first); structural recursion on explicit fuel so that the kernel
can evaluate it.  `fuel ≥ 1` always suffices to reach the base case for the
digit count of `n`, since the fuel never drops below the number of digits. -/
def natStrAux (fuel : Nat) (n : Nat) (acc : Str) : Str :=
  match fuel with
  | 0 => acc
  | fuel + 1 =>
    if n < 10 then digitChar n :: acc
    else natStrAux fuel (n / 10) (digitChar (n % 10) :: acc)

/-- Decimal rendering of a natural number, as Go's `fmt` produces it. -/
def natStr (n : Nat) : Str := natStrAux (n + 1) n []

/-- Go `fmt.Sprintf("%d", i)` for a (signed) integer. -/
def intStr (i : Int) : Str := if i < 0 then '-' :: natStr i.natAbs else natStr i.natAbs

/-- Zero-pad the decimal rendering of `n` on the left to width `w`
(Go layout fields such as "02", "15", "04", "2006"). -/
def padNat (w : Nat) (n : Nat) : Str :=
  List.replicate (w - (natStr n).length) '0' ++ natStr n

/-- Round the fraction `n / d` (with `d > 0`) to the nearest integer, ties to
even — the rounding Go's `fmt` applies for the `%.0f` verb.  Works directly on
numerator and denominator so that the kernel can evaluate it. -/
def roundHalfEvenND (n d : Int) : Int :=
  let f := n.ediv d
  let rem := n - f * d
  if 2 * rem < d then f
  else if d < 2 * rem then f + 1
  else if f.emod 2 = 0 then f else f + 1

/-- Go `fmt.Sprintf("%.0f", v)` on the rational model of a float: round half
to even, keep the sign of a negative value (Go prints "-0" for small negative
values). -/
def fmtF0 (q : ℚ) : Str :=
  (if q.num < 0 then ['-'] else []) ++
    natStr (roundHalfEvenND q.num.natAbs q.den).toNat

/-- Go `fmt.Sprintf("%.2f", x)` applied to the fraction `n / d` with `d > 0`. -/
def fmtF2ND (n d : Int) : Str :=
  let m : Nat := (roundHalfEvenND (n.natAbs * 100) d).toNat
  (if n < 0 then ['-'] else []) ++ natStr (m / 100) ++ '.' :: padNat 2 (m % 100)

/-- Go `fmt.Sprintf("%.2f", v)` on the rational model of a float. -/
def fmtF2 (q : ℚ) : Str := fmtF2ND q.num q.den

/-! Time: `time.Unix(t, 0).UTC()` split into civil date, clock and weekday. -/

/-- Whole days since the Unix epoch (floor division, as UTC conversion does). -/
def epochDays (t : Int) : Int := t.ediv 86400

/-- Seconds into the UTC day, always in `[0, 86400)`. -/
def epochSecs (t : Int) : Nat := (t.emod 86400).toNat

/-- Civil (year, month, day) from days since 1970-01-01, proleptic Gregorian
(Howard Hinnant's `civil_from_days`, on mathematical integers). -/
def civilFromDays (z0 : Int) : Int × Nat × Nat :=
  let z := z0 + 719468
  let era := z.ediv 146097
  let doe : Nat := (z.emod 146097).toNat
  let yoe : Nat := (doe - doe / 1460 + doe / 36524 - doe / 146096) / 365
  let doy : Nat := doe - (365 * yoe + yoe / 4 - yoe / 100)
  let mp : Nat := (5 * doy + 2) / 153
  let d : Nat := doy - (153 * mp + 2) / 5 + 1
  let m : Nat := if mp < 10 then mp + 3 else mp - 9
  let y : Int := (yoe : Int) + era * 400 + (if m ≤ 2 then 1 else 0)
  (y, m, d)

/-- Month abbreviations used by Go's "Jan" layout element. -/
def monthNames : List String :=
  ["Jan", "Feb", "Mar", "Apr", "May", "Jun", "Jul", "Aug", "Sep", "Oct", "Nov", "Dec"]

/-- Weekday abbreviations used by Go's "Mon" layout element. -/
def weekdayNames : List String :=
  ["Sun", "Mon", "Tue", "Wed", "Thu", "Fri", "Sat"]

/-- Month abbreviation for month number `m` (1-based). -/
def monthName (m : Nat) : Str := (monthNames.getD (m - 1) "").data

/-- Go layout "Mon" for an epoch timestamp (1970-01-01 was a Thursday). -/
def weekdayStr (t : Int) : Str :=
  (weekdayNames.getD ((epochDays t + 4).emod 7).toNat "").data

/-- Go layout "15:04" (zero-padded 24h clock) for an epoch timestamp. -/
def hhmmStr (t : Int) : Str :=
  padNat 2 (epochSecs t / 3600) ++ ':' :: padNat 2 (epochSecs t % 3600 / 60)

/-- Go layout "2006" (zero-padded year, sign kept for negative years). -/
def yearStr (y : Int) : Str :=
  (if y < 0 then ['-'] else []) ++ padNat 4 y.natAbs

/-- Go layout "02 Jan 2006 15:04" for an epoch timestamp, in UTC. -/
def fmtEpochFull (t : Int) : Str :=
  let c := civilFromDays (epochDays t)
  padNat 2 c.2.2 ++ ' ' :: monthName c.2.1 ++ ' ' :: yearStr c.1 ++ ' ' :: hhmmStr t

/-- Go layout "02 Jan 15:04" for an epoch timestamp, in UTC. -/
def fmtEpochDayMonth (t : Int) : Str :=
  let c := civilFromDays (epochDays t)
  padNat 2 c.2.2 ++ ' ' :: monthName c.2.1 ++ ' ' :: hhmmStr t

/-- Go layout "Mon 15:04" pieces combined, as the TAF period header uses. -/
def fmtEpochWdayHHMM (t : Int) : Str := weekdayStr t ++ ' ' :: hhmmStr t

/-- Rational literal `n / d` in a kernel-evaluable normal form, for concrete
inputs in examples and witnesses. -/
def qLit (n : Int) (d : Nat) : ℚ := mkRat n d

/-! ## Data model (`metar/client.go`) -/

/-- Model of a Go `any`-typed JSON field: the dynamic type is a string, a
number (`float64`), or anything else (nil / absent / unexpected type). -/
inductive GoVal where
  | str (s : Str)
  | num (q : ℚ)
  | null
deriving DecidableEq

/-- `Cloud` struct: one cloud layer (`cover`, `base` in feet AGL). -/
structure Cloud where
  cover : Str
  base : Int
deriving DecidableEq

/-- `METAR` struct (fields the formatter reads). -/
structure METAR where
  raw : Str
  stationID : Str
  name : Str
  temp : ℚ
  dewpoint : ℚ
  wind : GoVal
  windSpeed : Int
  windGust : Int
  visibility : GoVal
  altimeter : ℚ
  flightRules : Str
  clouds : List Cloud
  obsTime : Int

/-- `TAFForecast` struct: a single forecast period within a TAF. -/
structure TAFForecast where
  timeFrom : Int
  timeTo : Int
  fcstChange : Str
  probability : Option Int
  windDir : GoVal
  windSpeed : Int
  windGust : Option Int
  visibility : GoVal
  weather : Str
  clouds : List Cloud

/-- `TAF` struct (fields the formatter reads). -/
structure TAF where
  stationID : Str
  name : Str
  rawTAF : Str
  issueTime : Str
  validTimeFrom : Int
  validTimeTo : Int
  forecasts : List TAFForecast

/-! ## Lookup tables (`coverMap`, `weatherMap` in the formatter) -/

/-- `coverMap`: cloud cover abbreviation table.  A Go map with distinct keys
is modelled as an association list. -/
def coverTable : List (String × String) :=
  [("SKC", "Clear"), ("CLR", "Clear"), ("FEW", "Few"), ("SCT", "Scattered"),
   ("BKN", "Broken"), ("OVC", "Overcast"), ("OVX", "Obscured")]

/-- `weatherMap`: weather phenomenon code table (intensity, descriptor,
precipitation, obscuration, other). -/
def weatherTable : List (String × String) :=
  [("-", "Light"), ("+", "Heavy"), ("VC", "Vicinity"),
   ("MI", "Shallow"), ("PR", "Partial"), ("BC", "Patches"), ("DR", "Drifting"),
   ("BL", "Blowing"), ("SH", "Showers"), ("TS", "Thunderstorm"), ("FZ", "Freezing"),
   ("DZ", "Drizzle"), ("RA", "Rain"), ("SN", "Snow"), ("SG", "Snow Grains"),
   ("IC", "Ice Crystals"), ("PL", "Ice Pellets"), ("GR", "Hail"), ("GS", "Small Hail"),
   ("UP", "Unknown Precip"),
   ("BR", "Mist"), ("FG", "Fog"), ("FU", "Smoke"), ("VA", "Volcanic Ash"),
   ("DU", "Dust"), ("SA", "Sand"), ("HZ", "Haze"), ("PY", "Spray"),
   ("PO", "Dust Whirls"), ("SQ", "Squalls"), ("FC", "Funnel Cloud"),
   ("SS", "Sandstorm"), ("DS", "Duststorm")]

/-- Lookup in `weatherMap` (`desc, ok := weatherMap[code]`). -/
def weatherLookup (code : Str) : Option Str :=
  (weatherTable.find? (fun p => p.1.data = code)).map (fun p => p.2.data)

/-- `expandCloudCover`: table lookup with identity fallback. -/
def expandCloudCover (cover : Str) : Str :=
  match coverTable.find? (fun p => p.1.data = cover) with
  | some p => p.2.data
  | none => cover

/-! ## Weather group decoding -/

/-- The 2-character chunk loop of `decodeWeatherGroup`, including the final
single leftover character appended verbatim. -/
def chunkWeather : Str → List Str
  | c1 :: c2 :: rest =>
    (match weatherLookup [c1, c2] with
     | some desc => desc
     | none => [c1, c2]) :: chunkWeather rest
  | [c] => [[c]]
  | [] => []

/-- `decodeWeatherGroup`: decodes a single weather group such as "-RA" or
"TSRA".  Faithful to the source: the intensity character is consumed first
(and mapped through `weatherMap` when present there), then a leading "VC" is
consumed, then 2-character chunks, then a leftover character. -/
def decodeWeatherGroup (group : Str) : Str :=
  if group = [] then []
  else
    let s1 : List Str × Str :=
      match group with
      | c :: rest =>
        if c = '-' ∨ c = '+' then
          ((match weatherLookup [c] with
            | some desc => [desc]
            | none => []), rest)
        else ([], group)
      | [] => ([], group)
    let s2 : List Str × Str :=
      if s1.2.take 2 = lit "VC" then
        (s1.1 ++ [(weatherLookup (lit "VC")).getD []], s1.2.drop 2)
      else s1
    joinStr [' '] (s2.1 ++ chunkWeather s2.2)

/-- Go's `unicode.IsSpace` on the characters `strings.Fields` splits at. -/
def goIsSpace (c : Char) : Bool :=
  c.toNat = 9 ∨ c.toNat = 10 ∨ c.toNat = 11 ∨ c.toNat = 12 ∨ c.toNat = 13 ∨
  c.toNat = 32 ∨ c.toNat = 133 ∨ c.toNat = 160

/-- `strings.Fields`: split around runs of whitespace, dropping empties.
`acc` holds the characters of the current field in reverse. -/
def fieldsAux : Str → Str → List Str
  | [], acc => if acc = [] then [] else [acc.reverse]
  | c :: rest, acc =>
    if goIsSpace c then
      if acc = [] then fieldsAux rest [] else acc.reverse :: fieldsAux rest []
    else fieldsAux rest (c :: acc)

/-- `strings.Fields`. -/
def fields (s : Str) : List Str := fieldsAux s []

/-- `decodeWeather`: decodes a space-separated weather string such as
"-RA BR" to "Light Rain, Mist". -/
def decodeWeather (wxString : Str) : Str :=
  if wxString = [] then []
  else joinStr (lit ", ") ((fields wxString).map decodeWeatherGroup)

/-! ## Formatter (`Decode`, `DecodeTAF` and helpers) -/

/-- Opaque text styling (`lipgloss` `Render`): a passthrough on the text. -/
def renderStyle (s : Str) : Str := s

/-- `formatLine`: a styled "label: value" line, label left-padded to 11. -/
def formatLine (label value : Str) : Str :=
  renderStyle (padRightStr label 11) ++ renderStyle value ++ [nlChar]

/-- `formatTAFLine`: an indented line for TAF forecast details
(`"  %-9s"` label field). -/
def formatTAFLine (label value : Str) : Str :=
  renderStyle (lit "  " ++ padRightStr label 9) ++ renderStyle value ++ [nlChar]

/-- `formatFlightLine`: the flight-rules line.  The `switch` in the source
only selects a colour style; all styles are passthroughs here. -/
def formatFlightLine (fr : Str) : Str :=
  renderStyle (padRightStr (lit "Flight") 11) ++ renderStyle fr ++ [nlChar]

/-- `formatWind`: wind data to a readable string. -/
def formatWind (dir : GoVal) (speed gust : Int) : Str :=
  if speed = 0 then lit "Calm"
  else
    let result : Str :=
      match dir with
      | .str d =>
        if d = lit "VRB" then lit "Variable at " ++ intStr speed ++ lit " kt"
        else d ++ lit "° at " ++ intStr speed ++ lit " kt"
      | .num q => fmtF0 q ++ lit "° at " ++ intStr speed ++ lit " kt"
      | .null => intStr speed ++ lit " kt"
    result ++ (if 0 < gust then lit ", gusting " ++ intStr gust ++ lit " kt" else [])

/-- `formatVisibility`: visibility to a readable string. -/
def formatVisibility (vis : GoVal) : Str :=
  match vis with
  | .str s => s ++ lit " SM"
  | .num v => if 10 ≤ v then lit "10+ SM" else fmtF0 v ++ lit " SM"
  | .null => lit "Unknown"

/-- The description of one cloud layer inside `formatClouds`' loop. -/
def cloudLayerDesc (c : Cloud) : Str :=
  let cover := expandCloudCover c.cover
  if 0 < c.base then cover ++ lit " @ " ++ intStr c.base ++ lit " ft" else cover

/-- `formatClouds`: cloud layers to readable text; the loop accumulating
`descriptions` is a left fold, joined with ", ". -/
def formatClouds (clouds : List Cloud) : Str :=
  joinStr (lit ", ") (clouds.foldl (fun acc c => acc ++ [cloudLayerDesc c]) [])

/-- The station header line shared by `Decode` and `DecodeTAF`. -/
def stationLinePart (stationID name : Str) : Str :=
  (renderStyle stationID ++
    (if name ≠ [] then renderStyle (lit " · ") ++ renderStyle name else [])) ++ [nlChar]

/-- The observation-time line of `Decode`: present exactly when
`m.ObsTime > 0`, rendered "02 Jan 2006 15:04" + " UTC" in UTC. -/
def timeLinePart (obsTime : Int) : Str :=
  if 0 < obsTime then formatLine (lit "Time") (fmtEpochFull obsTime ++ lit " UTC") else []

/-- `altInHg := m.Altimeter * 0.02953`, then `fmt.Sprintf("%.2f", altInHg)`;
the float product is the exact rational product here. -/
def altInHgStr (alt : ℚ) : Str := fmtF2ND (alt.num * 2953) ((alt.den : Int) * 100000)

/-- The fixed middle lines of `Decode`: flight rules, wind, visibility,
temperature, altimeter. -/
def metarMidPart (m : METAR) : Str :=
  formatFlightLine m.flightRules ++
  formatLine (lit "Wind") (formatWind m.wind m.windSpeed m.windGust) ++
  formatLine (lit "Visibility") (formatVisibility m.visibility) ++
  formatLine (lit "Temp")
    (fmtF0 m.temp ++ lit "°C (Dewpoint: " ++ fmtF0 m.dewpoint ++ lit "°C)") ++
  formatLine (lit "Altimeter")
    (altInHgStr m.altimeter ++ lit " inHg / " ++ fmtF0 m.altimeter ++ lit " hPa")

/-- The final clouds line of `Decode` (label + value, no trailing newline). -/
def metarCloudsPart (clouds : List Cloud) : Str :=
  renderStyle (padRightStr (lit "Clouds") 11) ++
    renderStyle (if clouds ≠ [] then formatClouds clouds else lit "Clear")

/-- The text `Decode` accumulates in its string builder, before the box. -/
def decodeBody (m : METAR) : Str :=
  stationLinePart m.stationID m.name ++ timeLinePart m.obsTime ++
    metarMidPart m ++ metarCloudsPart m.clouds

/-- `boxStyle.Render`: the bordered box, an opaque passthrough on the text. -/
def boxRender (s : Str) : Str := s

/-- `Decode`: a METAR struct to a styled human-readable string. -/
def Decode (m : METAR) : Str := boxRender (decodeBody m)

/-- The change-indicator portion of a TAF period header (`switch f.FcstChange`;
`"Prob%-2d"` left-justifies the probability to width 2). -/
def changeText (f : TAFForecast) : Str :=
  if f.fcstChange = lit "FM" then lit "From  "
  else if f.fcstChange = lit "TEMPO" then lit "Tempo "
  else if f.fcstChange = lit "BECMG" then lit "Becmg "
  else if f.fcstChange = lit "PROB" then
    match f.probability with
    | some p => lit "Prob" ++ padRightStr (intStr p) 2
    | none => lit "Prob  "
  else lit "Init  "

/-- The TAF period header text: change indicator then
"Mon 15:04 - Mon 15:04". -/
def periodTimeText (f : TAFForecast) : Str :=
  changeText f ++ fmtEpochWdayHHMM f.timeFrom ++ lit " - " ++ fmtEpochWdayHHMM f.timeTo

/-- The Go condition `f.Visibility != nil && f.Visibility != ""`: an
interface is only equal to `""` when its dynamic type is `string` holding
the empty value. -/
def tafVisPresent : GoVal → Bool
  | .null => false
  | .str [] => false
  | .str (_ :: _) => true
  | .num _ => true

/-- `strings.TrimSuffix(s, "\n")`: drop one trailing newline if present. -/
def trimNl (s : Str) : Str := if s.getLast? = some nlChar then s.dropLast else s

/-- The optional wind line of a TAF period (gust dereferenced with default 0). -/
def windLinePart (f : TAFForecast) : Str :=
  if 0 < f.windSpeed then
    formatTAFLine (lit "Wind") (formatWind f.windDir f.windSpeed (f.windGust.getD 0))
  else []

/-- The optional visibility line of a TAF period. -/
def visLinePart (f : TAFForecast) : Str :=
  if tafVisPresent f.visibility then
    formatTAFLine (lit "Visib") (formatVisibility f.visibility)
  else []

/-- The optional decoded-weather line of a TAF period. -/
def wxLinePart (f : TAFForecast) : Str :=
  if f.weather ≠ [] then formatTAFLine (lit "Weather") (decodeWeather f.weather) else []

/-- The horizontal-rule separator emitted before non-first periods. -/
def sepLine : Str := renderStyle (lit "────────────────────────────") ++ [nlChar]

/-- `formatTAFForecast`: one TAF forecast period. -/
def formatTAFForecast (f : TAFForecast) (isFirst isLast : Bool) : Str :=
  let sb := (if isFirst then [] else sepLine) ++
    (renderStyle (periodTimeText f) ++ [nlChar]) ++
    windLinePart f ++ visLinePart f ++ wxLinePart f
  if f.clouds ≠ [] then
    let cloudsLine := formatTAFLine (lit "Clouds") (formatClouds f.clouds)
    sb ++ (if isLast then trimNl cloudsLine else cloudsLine)
  else if isLast then trimNl sb
  else sb

/-- The `for i, f := range t.Forecasts` loop of `DecodeTAF`: each period gets
`isFirst = (i == 0)` and `isLast = (i == len-1)`. -/
def renderForecasts : Bool → List TAFForecast → Str
  | _, [] => []
  | isFirst, [f] => formatTAFForecast f isFirst true
  | isFirst, f :: g :: rest => formatTAFForecast f isFirst false ++ renderForecasts false (g :: rest)

/-- The optional valid-period line of `DecodeTAF`. -/
def validLinePart (t : TAF) : Str :=
  if 0 < t.validTimeFrom ∧ 0 < t.validTimeTo then
    formatLine (lit "Valid")
      (fmtEpochDayMonth t.validTimeFrom ++ lit " to " ++
        fmtEpochDayMonth t.validTimeTo ++ lit " UTC")
  else []

/-- The text `DecodeTAF` accumulates in its string builder, before the box. -/
def decodeTAFBody (t : TAF) : Str :=
  stationLinePart t.stationID t.name ++
    (renderStyle (lit "TAF FORECAST") ++ [nlChar]) ++
    validLinePart t ++ renderForecasts true t.forecasts

/-- `DecodeTAF`: a TAF struct to a styled human-readable string. -/
def DecodeTAF (t : TAF) : Str := boxRender (decodeTAFBody t)

/-! ## Spec-side definitions (written from the spec's words, for refinement) -/

/-- Spec-side weather-group tokenization, following the claim's wording: if
the first character is "-" or "+", consume it and map to "Light"/"Heavy";
ELSE if the remaining text starts with "VC", consume it and map to
"Vicinity"; then fixed 2-character chunks with verbatim passthrough of
unknown chunks and a verbatim trailing odd character, all joined with single
spaces. -/
def specWeatherGroup (g : Str) : Str :=
  match g with
  | [] => []
  | c :: rest =>
    if c = '-' then joinStr [' '] (lit "Light" :: chunkWeather rest)
    else if c = '+' then joinStr [' '] (lit "Heavy" :: chunkWeather rest)
    else if (c :: rest).take 2 = lit "VC" then
      joinStr [' '] (lit "Vicinity" :: chunkWeather ((c :: rest).drop 2))
    else joinStr [' '] (chunkWeather (c :: rest))

/-- An indented TAF detail line without its newline (`"  %-9s"` label field
followed by the value). -/
def specLine (label value : Str) : Str := lit "  " ++ padRightStr label 9 ++ value

/-- The conditionally-present indented lines of a TAF period, in order:
wind (only if wind speed > 0), visibility (only if present and non-empty),
decoded weather (only if non-empty), clouds (only if any layers). -/
def specOptLines (f : TAFForecast) : List Str :=
  (if 0 < f.windSpeed then
    [specLine (lit "Wind") (formatWind f.windDir f.windSpeed (f.windGust.getD 0))]
   else []) ++
  (if tafVisPresent f.visibility then
    [specLine (lit "Visib") (formatVisibility f.visibility)]
   else []) ++
  (if f.weather ≠ [] then [specLine (lit "Weather") (decodeWeather f.weather)] else []) ++
  (if f.clouds ≠ [] then [specLine (lit "Clouds") (formatClouds f.clouds)] else [])

/-- All lines of a TAF period block: the header then the present detail
lines, omitted lines skipped with no placeholder. -/
def specPeriodLines (f : TAFForecast) : List Str :=
  periodTimeText f :: specOptLines f

/-- Spec-side rendering of one TAF period (spec §9's suggested shape): an
optional separator, then the present lines joined with newlines and no
trailing newline. -/
def specPeriodRender (f : TAFForecast) (isFirst : Bool) : Str :=
  (if isFirst then [] else sepLine) ++ joinStr [nlChar] (specPeriodLines f)

/-- A sequence of lines, each terminated by a newline (the shape a string
builder accumulates). -/
def blocksText (ls : List Str) : Str := (ls.map (fun l => l ++ [nlChar])).flatten

/-! ## Well-formedness predicates used as hypotheses -/

/-- A string free of newline characters (record fields are single-line
tokens in the data model). -/
def noNl (s : Str) : Prop := nlChar ∉ s

/-- A variant field whose textual payload, if any, is newline-free. -/
def noNlGoVal : GoVal → Prop
  | .str s => noNl s
  | _ => True

/-- The fields of a TAF forecast period that flow verbatim into its block are
newline-free. -/
def noNlForecast (f : TAFForecast) : Prop :=
  noNlGoVal f.windDir ∧ noNlGoVal f.visibility ∧ noNl f.weather ∧
    ∀ c ∈ f.clouds, noNl c.cover

instance noNlDecidable (s : Str) : Decidable (noNl s) :=
  inferInstanceAs (Decidable (nlChar ∉ s))

instance noNlGoValDecidable : (v : GoVal) → Decidable (noNlGoVal v)
  | .str s => inferInstanceAs (Decidable (noNl s))
  | .num _ => .isTrue trivial
  | .null => .isTrue trivial

instance noNlForecastDecidable (f : TAFForecast) : Decidable (noNlForecast f) :=
  inferInstanceAs (Decidable (_ ∧ _ ∧ _ ∧ _))

/-! ## Concrete records for witnesses -/

/-- The METAR record of the repository's `TestDecode`. -/
def mExample : METAR :=
  { raw := [], stationID := lit "KJFK", name := lit "John F Kennedy International",
    temp := 15, dewpoint := 10, wind := .num 270, windSpeed := 10, windGust := 0,
    visibility := .num 10, altimeter := qLit 101325 100, flightRules := lit "VFR",
    clouds := [⟨lit "FEW", 5000⟩], obsTime := 1704200000 }

/-- A TAF forecast period with every optional field present. -/
def fExample : TAFForecast :=
  { timeFrom := 1704200000, timeTo := 1704220000, fcstChange := lit "FM",
    probability := none, windDir := .num 270, windSpeed := 10, windGust := some 20,
    visibility := .str (lit "6+"), weather := lit "-RA BR",
    clouds := [⟨lit "BKN", 5000⟩] }

/-- A last TAF period without clouds, exercising the accumulated-text trim. -/
def fExample2 : TAFForecast :=
  { fExample with fcstChange := lit "PROB", probability := some 30, clouds := [] }

/-- A forecast period with an unrecognized change indicator. -/
def fExampleInit : TAFForecast := { fExample with fcstChange := lit "XX" }

/-- A two-period TAF record. -/
def tExample : TAF :=
  { stationID := lit "KJFK", name := [], rawTAF := [], issueTime := [],
    validTimeFrom := 1704200000, validTimeTo := 1704220000,
    forecasts := [fExample, fExample2] }

/-! ## Helper lemmas: newline-freedom of rendered fragments -/

theorem noNl_nil : noNl [] := by simp [noNl]

theorem noNl_append_iff {a b : Str} : noNl (a ++ b) ↔ noNl a ∧ noNl b := by
  simp [noNl, List.mem_append, not_or]

theorem noNl_cons_iff {c : Char} {s : Str} :
    noNl (c :: s) ↔ c ≠ nlChar ∧ noNl s := by
  simp only [noNl, List.mem_cons, not_or]
  exact ⟨fun h => ⟨fun he => h.1 he.symm, h.2⟩, fun h => ⟨fun he => h.1 he.symm, h.2⟩⟩

theorem noNl_append {a b : Str} (ha : noNl a) (hb : noNl b) : noNl (a ++ b) :=
  noNl_append_iff.mpr ⟨ha, hb⟩

theorem noNl_cons {c : Char} {s : Str} (hc : c ≠ nlChar) (hs : noNl s) :
    noNl (c :: s) := noNl_cons_iff.mpr ⟨hc, hs⟩

theorem getLast?_ne_nl {s : Str} (h : noNl s) : s.getLast? ≠ some nlChar := by
  intro hl
  exact h (List.mem_of_mem_getLast? (by simp [hl]))

theorem digitChar_isDigit {k : Nat} (h : k < 10) : (digitChar k).isDigit := by
  interval_cases k <;> decide

theorem ne_nl_of_isDigit {c : Char} (h : c.isDigit) : c ≠ nlChar := by
  intro he
  subst he
  exact absurd h (by decide)

theorem isDigit_of_mem_natStrAux :
    ∀ (fuel n : Nat) (acc : Str), (∀ c ∈ acc, c.isDigit) →
      ∀ c ∈ natStrAux fuel n acc, c.isDigit := by
  intro fuel
  induction fuel with
  | zero => intro n acc hacc c hc; exact hacc c hc
  | succ fuel ih =>
    intro n acc hacc c hc
    simp only [natStrAux] at hc
    split at hc
    · rcases List.mem_cons.mp hc with h | h
      · subst h; exact digitChar_isDigit (by omega)
      · exact hacc c h
    · refine ih (n / 10) _ ?_ c hc
      intro d hd
      rcases List.mem_cons.mp hd with h | h
      · subst h; exact digitChar_isDigit (Nat.mod_lt _ (by omega))
      · exact hacc d h

theorem isDigit_of_mem_natStr {n : Nat} {c : Char} (h : c ∈ natStr n) :
    c.isDigit :=
  isDigit_of_mem_natStrAux (n + 1) n [] (by simp) c h

theorem noNl_natStr {n : Nat} : noNl (natStr n) :=
  fun h => ne_nl_of_isDigit (isDigit_of_mem_natStr h) rfl

theorem mem_intStr {i : Int} {c : Char} (h : c ∈ intStr i) :
    c = '-' ∨ c.isDigit := by
  simp only [intStr] at h
  split at h
  · rcases List.mem_cons.mp h with h | h
    · exact Or.inl h
    · exact Or.inr (isDigit_of_mem_natStr h)
  · exact Or.inr (isDigit_of_mem_natStr h)

theorem noNl_intStr {i : Int} : noNl (intStr i) := by
  intro h
  rcases mem_intStr h with h | h
  · exact absurd h.symm (by decide)
  · exact ne_nl_of_isDigit h rfl

theorem noNl_padNat {w n : Nat} : noNl (padNat w n) := by
  refine noNl_append ?_ noNl_natStr
  intro h
  have := List.eq_of_mem_replicate h
  exact absurd this (by decide)

theorem mem_fmtF0 {q : ℚ} {c : Char} (h : c ∈ fmtF0 q) : c = '-' ∨ c.isDigit := by
  simp only [fmtF0] at h
  rcases List.mem_append.mp h with h | h
  · split at h <;> simp at h; exact Or.inl h
  · exact Or.inr (isDigit_of_mem_natStr h)

theorem noNl_fmtF0 {q : ℚ} : noNl (fmtF0 q) := by
  intro h
  rcases mem_fmtF0 h with h | h
  · exact absurd h.symm (by decide)
  · exact ne_nl_of_isDigit h rfl

theorem dot_not_mem_fmtF0 {q : ℚ} : '.' ∉ fmtF0 q := by
  intro h
  rcases mem_fmtF0 h with h | h
  · exact absurd h (by decide)
  · exact absurd h (by decide)

theorem noNl_fmtF2ND {n d : Int} : noNl (fmtF2ND n d) := by
  refine noNl_append (noNl_append ?_ noNl_natStr) (noNl_cons (by decide) noNl_padNat)
  intro h
  split at h <;> simp at h
  exact absurd h (by decide)

theorem noNl_fmtF2 {q : ℚ} : noNl (fmtF2 q) := noNl_fmtF2ND

theorem noNl_getD_names {l : List String} {k : Nat} {d : String}
    (hl : ∀ s ∈ l, noNl s.data) (hd : noNl d.data) : noNl ((l.getD k d).data) := by
  simp only [List.getD]
  cases h : l.get? k with
  | none => simpa using hd
  | some x => simpa using hl x (List.get?_mem h)

theorem noNl_monthName {k : Nat} : noNl (monthName k) :=
  noNl_getD_names (by decide) (by decide)

theorem noNl_weekdayStr {t : Int} : noNl (weekdayStr t) :=
  noNl_getD_names (by decide) (by decide)

theorem noNl_hhmmStr {t : Int} : noNl (hhmmStr t) :=
  noNl_append noNl_padNat (noNl_cons (by decide) noNl_padNat)

theorem noNl_yearStr {y : Int} : noNl (yearStr y) := by
  refine noNl_append ?_ noNl_padNat
  intro h
  split at h <;> simp at h
  exact absurd h (by decide)

theorem noNl_fmtEpochFull {t : Int} : noNl (fmtEpochFull t) := by
  simp only [fmtEpochFull, noNl_append_iff, noNl_cons_iff]
  exact ⟨⟨⟨noNl_padNat, by decide, noNl_monthName⟩, by decide, noNl_yearStr⟩,
    by decide, noNl_hhmmStr⟩

theorem noNl_fmtEpochDayMonth {t : Int} : noNl (fmtEpochDayMonth t) := by
  simp only [fmtEpochDayMonth, noNl_append_iff, noNl_cons_iff]
  exact ⟨⟨noNl_padNat, by decide, noNl_monthName⟩, by decide, noNl_hhmmStr⟩

theorem noNl_fmtEpochWdayHHMM {t : Int} : noNl (fmtEpochWdayHHMM t) := by
  simp only [fmtEpochWdayHHMM, noNl_append_iff, noNl_cons_iff]
  exact ⟨noNl_weekdayStr, by decide, noNl_hhmmStr⟩

theorem noNl_weatherLookup {code d : Str} (h : weatherLookup code = some d) :
    noNl d := by
  simp only [weatherLookup, Option.map_eq_some'] at h
  obtain ⟨p, hp, hd⟩ := h
  have hm := List.mem_of_find?_eq_some hp
  have hall : ∀ x ∈ weatherTable, noNl x.2.data := by decide
  exact hd ▸ hall p hm

theorem noNl_expandCloudCover {cover : Str} (h : noNl cover) :
    noNl (expandCloudCover cover) := by
  unfold expandCloudCover
  cases hf : coverTable.find? (fun p => p.1.data = cover) with
  | none => simpa using h
  | some p =>
    have hm := List.mem_of_find?_eq_some hf
    have hall : ∀ x ∈ coverTable, noNl x.2.data := by decide
    simpa using hall p hm

theorem noNl_chunkWeather :
    ∀ (g : Str), noNl g → ∀ p ∈ chunkWeather g, noNl p
  | [], _ => by simp [chunkWeather]
  | [c], h => by
    intro p hp
    simp only [chunkWeather, List.mem_singleton] at hp
    subst hp
    exact h
  | c1 :: c2 :: rest, h => by
    intro p hp
    have h1 : c1 ≠ nlChar := (noNl_cons_iff.mp h).1
    have h2 : c2 ≠ nlChar := (noNl_cons_iff.mp (noNl_cons_iff.mp h).2).1
    have hr : noNl rest := (noNl_cons_iff.mp (noNl_cons_iff.mp h).2).2
    simp only [chunkWeather, List.mem_cons] at hp
    rcases hp with hp | hp
    · subst hp
      cases hl : weatherLookup [c1, c2] with
      | some d => exact noNl_weatherLookup hl
      | none => exact noNl_cons h1 (noNl_cons h2 noNl_nil)
    · exact noNl_chunkWeather rest hr p hp

theorem noNl_fieldsAux :
    ∀ (s acc : Str), noNl s → noNl acc → ∀ p ∈ fieldsAux s acc, noNl p
  | [], acc => by
    intro _ hacc p hp
    rw [fieldsAux] at hp
    split at hp
    · simp at hp
    · simp only [List.mem_singleton] at hp
      subst hp
      intro hx
      exact hacc (List.mem_reverse.mp hx)
  | c :: rest, acc => by
    intro hs hacc p hp
    have hc : c ≠ nlChar := (noNl_cons_iff.mp hs).1
    have hs' : noNl rest := (noNl_cons_iff.mp hs).2
    rw [fieldsAux] at hp
    split at hp
    · split at hp
      · exact noNl_fieldsAux rest [] hs' noNl_nil p hp
      · rcases List.mem_cons.mp hp with h | h
        · subst h
          intro hx
          exact hacc (List.mem_reverse.mp hx)
        · exact noNl_fieldsAux rest [] hs' noNl_nil p h
    · exact noNl_fieldsAux rest (c :: acc) hs' (noNl_cons hc hacc) p hp

theorem noNl_fields {s : Str} (h : noNl s) : ∀ p ∈ fields s, noNl p :=
  noNl_fieldsAux s [] h noNl_nil

theorem noNl_joinStr {sep : Str} (hsep : noNl sep) :
    ∀ (ps : List Str), (∀ p ∈ ps, noNl p) → noNl (joinStr sep ps)
  | [], _ => noNl_nil
  | [x], h => by simpa [joinStr] using h x (by simp)
  | x :: y :: ys, h => by
    have he : joinStr sep (x :: y :: ys) = (x ++ sep) ++ joinStr sep (y :: ys) := rfl
    rw [he]
    exact noNl_append (noNl_append (h x (by simp)) hsep)
      (noNl_joinStr hsep (y :: ys) (fun p hp => h p (List.mem_cons_of_mem x hp)))

theorem noNl_specWeatherGroup {g : Str} (h : noNl g) : noNl (specWeatherGroup g) := by
  have hsp : noNl [' '] := by decide
  cases g with
  | nil => exact noNl_nil
  | cons c rest =>
    have hc : c ≠ nlChar := (noNl_cons_iff.mp h).1
    have hr : noNl rest := (noNl_cons_iff.mp h).2
    rw [specWeatherGroup]
    split
    · refine noNl_joinStr hsp _ ?_
      intro p hp
      rcases List.mem_cons.mp hp with hp | hp
      · subst hp; decide
      · exact noNl_chunkWeather rest hr p hp
    · split
      · refine noNl_joinStr hsp _ ?_
        intro p hp
        rcases List.mem_cons.mp hp with hp | hp
        · subst hp; decide
        · exact noNl_chunkWeather rest hr p hp
      · split
        · refine noNl_joinStr hsp _ ?_
          intro p hp
          rcases List.mem_cons.mp hp with hp | hp
          · subst hp; decide
          · refine noNl_chunkWeather ((c :: rest).drop 2) ?_ p hp
            intro hx
            exact h (List.mem_of_mem_drop hx)
        · exact noNl_joinStr hsp _ (noNl_chunkWeather (c :: rest) h)

/-! ## Helper lemmas: weather-group tokenization -/

theorem take_two_vc {s : Str} (h : s.take 2 = lit "VC") :
    ∃ s2, s = 'V' :: 'C' :: s2 := by
  match s with
  | [] => simp [lit] at h
  | [a] => simp [lit] at h
  | a :: b :: s2 =>
    simp only [List.take, lit, String.data] at h
    rcases List.cons.injEq .. ▸ h with ⟨h1, h2⟩
    exact ⟨s2, by simp_all⟩

theorem chunkWeather_vc (rest : Str) :
    chunkWeather ('V' :: 'C' :: rest) = lit "Vicinity" :: chunkWeather rest := by
  have hl : weatherLookup ['V', 'C'] = some (lit "Vicinity") := by decide
  rw [chunkWeather, hl]

theorem decodeWeatherGroup_eq_spec (g : Str) :
    decodeWeatherGroup g = specWeatherGroup g := by
  have hgetd : (weatherLookup (lit "VC")).getD [] = lit "Vicinity" := by decide
  cases g with
  | nil => rfl
  | cons c rest =>
    rw [decodeWeatherGroup, specWeatherGroup]
    rw [if_neg (List.cons_ne_nil c rest)]
    by_cases hm : c = '-'
    · subst hm
      have hlk : weatherLookup ['-'] = some (lit "Light") := by decide
      rw [if_pos (Or.inl rfl), if_pos rfl]
      simp only [hlk, hgetd]
      by_cases hvc : rest.take 2 = lit "VC"
      · obtain ⟨s2, hs2⟩ := take_two_vc hvc
        subst hs2
        rw [if_pos hvc, chunkWeather_vc]
        rfl
      · rw [if_neg hvc]
        rfl
    · by_cases hp : c = '+'
      · subst hp
        have hlk : weatherLookup ['+'] = some (lit "Heavy") := by decide
        rw [if_pos (Or.inr rfl), if_neg (by decide), if_pos rfl]
        simp only [hlk, hgetd]
        by_cases hvc : rest.take 2 = lit "VC"
        · obtain ⟨s2, hs2⟩ := take_two_vc hvc
          subst hs2
          rw [if_pos hvc, chunkWeather_vc]
          rfl
        · rw [if_neg hvc]
          rfl
      · rw [if_neg (by tauto), if_neg hm, if_neg hp]
        simp only [hgetd]
        by_cases hvc : (c :: rest).take 2 = lit "VC"
        · rw [if_pos hvc, if_pos hvc]
          rfl
        · rw [if_neg hvc, if_neg hvc]
          rfl

theorem noNl_decodeWeatherGroup {g : Str} (h : noNl g) :
    noNl (decodeWeatherGroup g) := by
  rw [decodeWeatherGroup_eq_spec]
  exact noNl_specWeatherGroup h

theorem noNl_decodeWeather {w : Str} (h : noNl w) : noNl (decodeWeather w) := by
  rw [decodeWeather]
  split
  · exact noNl_nil
  · refine noNl_joinStr (by decide) _ ?_
    intro p hp
    obtain ⟨q, hq, hpq⟩ := List.mem_map.mp hp
    exact hpq ▸ noNl_decodeWeatherGroup (noNl_fields h q hq)

/-! ## Helper lemmas: field formatters -/

theorem noNl_formatWind {dir : GoVal} {speed gust : Int} (h : noNlGoVal dir) :
    noNl (formatWind dir speed gust) := by
  rw [formatWind.eq_def]
  split
  · decide
  · refine noNl_append ?_ ?_
    · split
      · split
        · simp only [noNl_append_iff]
          exact ⟨⟨by decide, noNl_intStr⟩, by decide⟩
        · simp only [noNl_append_iff]
          exact ⟨⟨⟨h, by decide⟩, noNl_intStr⟩, by decide⟩
      · simp only [noNl_append_iff]
        exact ⟨⟨⟨noNl_fmtF0, by decide⟩, noNl_intStr⟩, by decide⟩
      · exact noNl_append noNl_intStr (by decide)
    · split
      · exact noNl_append (noNl_append (by decide) noNl_intStr) (by decide)
      · exact noNl_nil

theorem noNl_formatVisibility {vis : GoVal} (h : noNlGoVal vis) :
    noNl (formatVisibility vis) := by
  cases vis with
  | str s => exact noNl_append h (by decide)
  | num v =>
    rw [formatVisibility]
    split
    · decide
    · exact noNl_append noNl_fmtF0 (by decide)
  | null => decide

theorem noNl_cloudLayerDesc {c : Cloud} (h : noNl c.cover) :
    noNl (cloudLayerDesc c) := by
  rw [cloudLayerDesc]
  split
  · exact noNl_append
      (noNl_append (noNl_append (noNl_expandCloudCover h) (by decide)) noNl_intStr)
      (by decide)
  · exact noNl_expandCloudCover h

theorem foldl_append_map {α β : Type} (f : α → β) :
    ∀ (l : List α) (acc : List β),
      l.foldl (fun a c => a ++ [f c]) acc = acc ++ l.map f
  | [], acc => by simp
  | x :: xs, acc => by
    rw [List.foldl_cons, foldl_append_map f xs (acc ++ [f x])]
    simp

theorem formatClouds_eq_map (clouds : List Cloud) :
    formatClouds clouds = joinStr (lit ", ") (clouds.map cloudLayerDesc) := by
  rw [formatClouds, foldl_append_map]
  rfl

theorem noNl_formatClouds {clouds : List Cloud}
    (h : ∀ c ∈ clouds, noNl c.cover) : noNl (formatClouds clouds) := by
  rw [formatClouds_eq_map]
  refine noNl_joinStr (by decide) _ ?_
  intro p hp
  obtain ⟨q, hq, hpq⟩ := List.mem_map.mp hp
  exact hpq ▸ noNl_cloudLayerDesc (h q hq)

/-! ## Helper lemmas: line blocks and joins -/

theorem blocksText_append (a b : List Str) :
    blocksText (a ++ b) = blocksText a ++ blocksText b := by
  simp [blocksText]

theorem blocksText_eq_join :
    ∀ (ls : List Str), ls ≠ [] →
      blocksText ls = joinStr [nlChar] ls ++ [nlChar]
  | [x], _ => by simp [blocksText, joinStr]
  | x :: y :: ys, _ => by
    have ih := blocksText_eq_join (y :: ys) (by simp)
    have hx : blocksText (x :: y :: ys) = (x ++ [nlChar]) ++ blocksText (y :: ys) := by
      simp [blocksText]
    have hj : joinStr [nlChar] (x :: y :: ys) =
        (x ++ [nlChar]) ++ joinStr [nlChar] (y :: ys) := rfl
    rw [hx, ih, hj]
    simp [List.append_assoc]

theorem joinStr_concat (sep : Str) :
    ∀ (xs : List Str) (y : Str), xs ≠ [] →
      joinStr sep (xs ++ [y]) = joinStr sep xs ++ sep ++ y
  | [x], y, _ => rfl
  | x :: x2 :: xs, y, _ => by
    have ih := joinStr_concat sep (x2 :: xs) y (by simp)
    have h1 : joinStr sep ((x :: x2 :: xs) ++ [y]) =
        (x ++ sep) ++ joinStr sep ((x2 :: xs) ++ [y]) := rfl
    have h2 : joinStr sep (x :: x2 :: xs) = (x ++ sep) ++ joinStr sep (x2 :: xs) := rfl
    rw [h1, ih, h2]
    simp [List.append_assoc]

theorem joinStr_ne_nil {sep x : Str} (hx : x ≠ []) (ys : List Str) :
    joinStr sep (x :: ys) ≠ [] := by
  cases ys with
  | nil => exact hx
  | cons y ys =>
    have h : joinStr sep (x :: y :: ys) = (x ++ sep) ++ joinStr sep (y :: ys) := rfl
    rw [h]
    simp [List.append_eq_nil, hx]

theorem getLast?_joinStr_ne_nl {sep : Str} :
    ∀ (ls : List Str), (∀ l ∈ ls, l ≠ [] ∧ noNl l) → ls ≠ [] →
      (joinStr sep ls).getLast? ≠ some nlChar
  | [x], h, _ => getLast?_ne_nl (h x (by simp)).2
  | x :: y :: ys, h, _ => by
    have he : joinStr sep (x :: y :: ys) = (x ++ sep) ++ joinStr sep (y :: ys) := rfl
    rw [he, List.getLast?_append_of_ne_nil _
      (joinStr_ne_nil (h y (by simp)).1 ys)]
    exact getLast?_joinStr_ne_nl (y :: ys) (fun l hl => h l (List.mem_cons_of_mem x hl))
      (by simp)

theorem trimNl_concat (x : Str) : trimNl (x ++ [nlChar]) = x := by
  simp [trimNl, List.getLast?_concat, List.dropLast_concat]

/-! ## Helper lemmas: TAF period structure -/

theorem formatTAFLine_eq (label value : Str) :
    formatTAFLine label value = specLine label value ++ [nlChar] := rfl

theorem noNl_padRightStr {x : Str} (h : noNl x) {w : Nat} :
    noNl (padRightStr x w) := by
  refine noNl_append h ?_
  intro hm
  exact absurd (List.eq_of_mem_replicate hm) (by decide)

theorem noNl_changeText (f : TAFForecast) : noNl (changeText f) := by
  rw [changeText]
  split
  · decide
  · split
    · decide
    · split
      · decide
      · split
        · split
          · exact noNl_append (by decide) (noNl_padRightStr noNl_intStr)
          · decide
        · decide

theorem noNl_periodTimeText (f : TAFForecast) : noNl (periodTimeText f) := by
  simp only [periodTimeText, noNl_append_iff]
  exact ⟨⟨⟨noNl_changeText f, noNl_fmtEpochWdayHHMM⟩, by decide⟩, noNl_fmtEpochWdayHHMM⟩

theorem periodTimeText_ne_nil (f : TAFForecast) : periodTimeText f ≠ [] := by
  simp only [periodTimeText]
  simp [List.append_eq_nil, fmtEpochWdayHHMM]

theorem specLine_ne_nil (label value : Str) : specLine label value ≠ [] := by
  simp [specLine, List.append_eq_nil, lit]

theorem noNl_specLine {label value : Str} (hl : noNl label) (hv : noNl value) :
    noNl (specLine label value) :=
  noNl_append (noNl_append (by decide) (noNl_padRightStr hl)) hv

theorem specPeriodLines_good {f : TAFForecast} (h : noNlForecast f) :
    ∀ l ∈ specPeriodLines f, l ≠ [] ∧ noNl l := by
  obtain ⟨hw, hv, hx, hc⟩ := h
  intro l hl
  simp only [specPeriodLines, List.mem_cons] at hl
  rcases hl with hl | hl
  · exact hl ▸ ⟨periodTimeText_ne_nil f, noNl_periodTimeText f⟩
  · simp only [specOptLines, List.mem_append] at hl
    rcases hl with ((hl | hl) | hl) | hl
    · rw [List.mem_ite_nil_right] at hl
      rw [List.mem_singleton.mp hl.2]
      exact ⟨specLine_ne_nil _ _, noNl_specLine (by decide) (noNl_formatWind hw)⟩
    · rw [List.mem_ite_nil_right] at hl
      rw [List.mem_singleton.mp hl.2]
      exact ⟨specLine_ne_nil _ _, noNl_specLine (by decide) (noNl_formatVisibility hv)⟩
    · rw [List.mem_ite_nil_right] at hl
      rw [List.mem_singleton.mp hl.2]
      exact ⟨specLine_ne_nil _ _, noNl_specLine (by decide) (noNl_decodeWeather hx)⟩
    · rw [List.mem_ite_nil_right] at hl
      rw [List.mem_singleton.mp hl.2]
      exact ⟨specLine_ne_nil _ _, noNl_specLine (by decide) (noNl_formatClouds hc)⟩

theorem tafPeriod_notLast (f : TAFForecast) (isFirst : Bool) :
    formatTAFForecast f isFirst false =
      (if isFirst then [] else sepLine) ++ blocksText (specPeriodLines f) := by
  by_cases h1 : 0 < f.windSpeed <;> by_cases h2 : tafVisPresent f.visibility <;>
    by_cases h3 : f.weather = [] <;> by_cases h4 : f.clouds = [] <;>
      simp [formatTAFForecast, specPeriodLines, specOptLines, blocksText,
        windLinePart, visLinePart, wxLinePart, formatTAFLine, specLine,
        renderStyle, h1, h2, h3, h4, List.append_assoc]

theorem tafPeriod_trim (f : TAFForecast) (isFirst : Bool) :
    formatTAFForecast f isFirst true = trimNl (formatTAFForecast f isFirst false) := by
  by_cases h4 : f.clouds = []
  · simp [formatTAFForecast, h4]
  · have h4' : f.clouds ≠ [] := h4
    simp only [formatTAFForecast, if_pos h4', eq_self_iff_true, if_true,
      Bool.false_eq_true, if_false]
    rw [formatTAFLine_eq, trimNl_concat]
    conv_rhs => rw [← List.append_assoc]
    rw [trimNl_concat]

theorem tafPeriod_last (f : TAFForecast) (isFirst : Bool) :
    formatTAFForecast f isFirst true = specPeriodRender f isFirst := by
  rw [tafPeriod_trim, tafPeriod_notLast,
    blocksText_eq_join _ (by simp [specPeriodLines]),
    ← List.append_assoc, trimNl_concat, specPeriodRender]

/-! ## Helper lemmas: report bodies -/

theorem formatLine_getLast (label value : Str) :
    (formatLine label value).getLast? = some nlChar := List.getLast?_concat _

theorem formatLine_ne_nil (label value : Str) : formatLine label value ≠ [] := by
  simp [formatLine, List.append_eq_nil]

theorem metarMidPart_getLast (m : METAR) :
    (metarMidPart m).getLast? = some nlChar := by
  rw [metarMidPart, List.getLast?_append_of_ne_nil _ (formatLine_ne_nil _ _)]
  exact formatLine_getLast _ _

theorem metarMidPart_ne_nil (m : METAR) : metarMidPart m ≠ [] := by
  intro he
  rw [metarMidPart] at he
  rcases List.append_eq_nil.mp he with ⟨-, h2⟩
  exact formatLine_ne_nil _ _ h2

theorem metarCloudsPart_ne_nil (clouds : List Cloud) :
    metarCloudsPart clouds ≠ [] := by
  intro he
  rcases List.append_eq_nil.mp he with ⟨h1, -⟩
  simp [renderStyle, padRightStr, lit, List.append_eq_nil] at h1

theorem noNl_metarCloudsPart {clouds : List Cloud}
    (h : ∀ c ∈ clouds, noNl c.cover) : noNl (metarCloudsPart clouds) := by
  refine noNl_append (noNl_padRightStr (by decide)) ?_
  show noNl (renderStyle _)
  rw [renderStyle]
  split
  · exact noNl_formatClouds h
  · decide

theorem decodeInit_getLast (m : METAR) :
    (stationLinePart m.stationID m.name ++ timeLinePart m.obsTime ++
      metarMidPart m).getLast? = some nlChar := by
  rw [List.getLast?_append_of_ne_nil _ (metarMidPart_ne_nil m)]
  exact metarMidPart_getLast m

theorem decodeBody_getLast (m : METAR) (h : ∀ c ∈ m.clouds, noNl c.cover) :
    (decodeBody m).getLast? ≠ some nlChar := by
  rw [decodeBody, List.getLast?_append_of_ne_nil _ (metarCloudsPart_ne_nil _)]
  exact getLast?_ne_nl (noNl_metarCloudsPart h)

theorem timeLinePart_eq_nil_iff (o : Int) : timeLinePart o = [] ↔ o ≤ 0 := by
  rw [timeLinePart]
  split
  · exact iff_of_false (formatLine_ne_nil _ _) (by omega)
  · exact iff_of_true rfl (by omega)

theorem renderForecasts_concat :
    ∀ (gs : List TAFForecast) (f : TAFForecast) (first : Bool),
      ∃ pre b, renderForecasts first (gs ++ [f]) = pre ++ formatTAFForecast f b true
  | [], f, first => ⟨[], first, rfl⟩
  | [g], f, first => ⟨formatTAFForecast g first false, false, rfl⟩
  | g :: g2 :: gs2, f, first => by
    obtain ⟨pre, b, h⟩ := renderForecasts_concat (g2 :: gs2) f false
    refine ⟨formatTAFForecast g first false ++ pre, b, ?_⟩
    have he : renderForecasts first ((g :: g2 :: gs2) ++ [f]) =
        formatTAFForecast g first false ++ renderForecasts false ((g2 :: gs2) ++ [f]) := rfl
    rw [he, h, List.append_assoc]

theorem tafPeriodLast_ne_nil (f : TAFForecast) (b : Bool) :
    formatTAFForecast f b true ≠ [] := by
  rw [tafPeriod_last, specPeriodRender]
  intro he
  rcases List.append_eq_nil.mp he with ⟨-, h2⟩
  exact joinStr_ne_nil (periodTimeText_ne_nil f) _ h2

theorem tafPeriodLast_getLast {f : TAFForecast} (h : noNlForecast f) (b : Bool) :
    (formatTAFForecast f b true).getLast? ≠ some nlChar := by
  have hc : specPeriodLines f = periodTimeText f :: specOptLines f := rfl
  rw [tafPeriod_last, specPeriodRender, hc, List.getLast?_append_of_ne_nil _
    (joinStr_ne_nil (periodTimeText_ne_nil f) _)]
  rw [← hc]
  exact getLast?_joinStr_ne_nl _ (specPeriodLines_good h) (by simp [specPeriodLines])

theorem decodeTAFBody_getLast (t : TAF) (hne : t.forecasts ≠ [])
    (h : ∀ f ∈ t.forecasts, noNlForecast f) :
    (decodeTAFBody t).getLast? ≠ some nlChar := by
  obtain ⟨gs, f, hfs⟩ := (List.eq_nil_or_concat t.forecasts).resolve_left hne
  rw [List.concat_eq_append] at hfs
  obtain ⟨pre, b, hr⟩ := renderForecasts_concat gs f true
  have hf : noNlForecast f := h f (by rw [hfs]; simp)
  rw [decodeTAFBody, hfs, hr, List.getLast?_append_of_ne_nil _
    (by simp [List.append_eq_nil, tafPeriodLast_ne_nil f b]),
    List.getLast?_append_of_ne_nil _ (tafPeriodLast_ne_nil f b)]
  exact tafPeriodLast_getLast hf b

/-! ## Claim theorems -/

/-- C1: `decodeWeatherGroup` implements the greedy left-to-right tokenization
the spec gives — intensity sign first, then a leading "VC", then fixed
2-character chunks with unknown chunks passed through verbatim and a single
trailing odd character appended verbatim, joined with single spaces
(`specWeatherGroup` is that description verbatim) — and in particular maps
"-RA" to "Light Rain", "TSRA" to "Thunderstorm Rain" and "VCSH" to
"Vicinity Showers". -/
theorem claim_c1_decodeWeatherGroup :
    (∀ g : Str, decodeWeatherGroup g = specWeatherGroup g) ∧
    decodeWeatherGroup (lit "-RA") = lit "Light Rain" ∧
    decodeWeatherGroup (lit "TSRA") = lit "Thunderstorm Rain" ∧
    decodeWeatherGroup (lit "VCSH") = lit "Vicinity Showers" :=
  ⟨decodeWeatherGroup_eq_spec, by decide, by decide, by decide⟩

/-- C2: `formatVisibility` appends " SM" verbatim to a textual value,
collapses every numeric value ≥ 10 to "10+ SM", renders a numeric value
< 10 as "{value} SM" with no decimal places (the `%.0f` rendering contains
no decimal point), and returns "Unknown" for an absent or wrong-typed
value. -/
theorem claim_c2_formatVisibility :
    (∀ s : Str, formatVisibility (.str s) = s ++ lit " SM") ∧
    (∀ v : ℚ, 10 ≤ v → formatVisibility (.num v) = lit "10+ SM") ∧
    (∀ v : ℚ, v < 10 → formatVisibility (.num v) = fmtF0 v ++ lit " SM") ∧
    (∀ v : ℚ, '.' ∉ fmtF0 v) ∧
    formatVisibility .null = lit "Unknown" := by
  refine ⟨fun s => rfl, fun v hv => ?_, fun v hv => ?_,
    fun v => dot_not_mem_fmtF0, rfl⟩
  · simp [formatVisibility, hv]
  · simp [formatVisibility, not_le.mpr hv]

/-- C2 witness: a numeric value above the ceiling and one below it. -/
theorem claim_c2_witness :
    formatVisibility (.num 15) = lit "10+ SM" ∧
    formatVisibility (.num 3) = lit "3 SM" :=
  ⟨claim_c2_formatVisibility.2.1 15 (by norm_num), by
    rw [claim_c2_formatVisibility.2.2.1 3 (by norm_num)]; decide⟩

/-- C3: `formatWind` returns "Calm" whenever the speed is 0 regardless of
direction and gust; otherwise "VRB" gives "Variable at {speed} kt", a
numeric direction gives "{direction}° at {speed} kt" with no decimals, any
other string direction is echoed as "{direction}° at {speed} kt", an absent
direction gives "{speed} kt"; a positive gust appends
", gusting {gust} kt"; and (180, 15, 25) gives exactly
"180° at 15 kt, gusting 25 kt". -/
theorem claim_c3_formatWind :
    (∀ (dir : GoVal) (gust : Int), formatWind dir 0 gust = lit "Calm") ∧
    (∀ speed : Int, speed ≠ 0 → formatWind (.str (lit "VRB")) speed 0 =
      lit "Variable at " ++ intStr speed ++ lit " kt") ∧
    (∀ (d : Str) (speed : Int), speed ≠ 0 → d ≠ lit "VRB" →
      formatWind (.str d) speed 0 = d ++ lit "° at " ++ intStr speed ++ lit " kt") ∧
    (∀ (q : ℚ) (speed : Int), speed ≠ 0 →
      formatWind (.num q) speed 0 = fmtF0 q ++ lit "° at " ++ intStr speed ++ lit " kt") ∧
    (∀ speed : Int, speed ≠ 0 → formatWind .null speed 0 = intStr speed ++ lit " kt") ∧
    (∀ (dir : GoVal) (speed gust : Int), speed ≠ 0 → 0 < gust →
      formatWind dir speed gust =
        formatWind dir speed 0 ++ lit ", gusting " ++ intStr gust ++ lit " kt") ∧
    formatWind (.num 180) 15 25 = lit "180° at 15 kt, gusting 25 kt" := by
  refine ⟨fun dir gust => by simp [formatWind], fun speed hs => ?_,
    fun d speed hs hd => ?_, fun q speed hs => ?_, fun speed hs => ?_,
    fun dir speed gust hs hg => ?_, by decide⟩
  · simp [formatWind, hs]
  · simp [formatWind, hs, hd, List.append_assoc]
  · simp [formatWind, hs, List.append_assoc]
  · simp [formatWind, hs]
  · simp [formatWind, hs, hg, List.append_assoc]

/-- C3 witness: variable wind with a gust, built from the theorem's own
clauses. -/
theorem claim_c3_witness :
    formatWind (.str (lit "VRB")) 8 15 = lit "Variable at 8 kt, gusting 15 kt" := by
  rw [claim_c3_formatWind.2.2.2.2.2.1 (.str (lit "VRB")) 8 15 (by norm_num) (by norm_num),
    claim_c3_formatWind.2.1 8 (by norm_num)]
  decide

/-- C4: every TAF period block is an optional horizontal-rule separator
(before every period except the first), then the header line (change
indicator: initial→"Init", FM→"From", TEMPO→"Tempo", BECMG→"Becmg",
PROB→"Prob{N}" when the probability is present else "Prob", followed by the
times as "{WeekdayAbbrev} {HH:MM} - {WeekdayAbbrev} {HH:MM}"), then exactly
the present indented detail lines (wind only if speed > 0, visibility only
if present and non-empty, weather only if non-empty, clouds only if layers
exist), joined with newlines — with a trailing newline exactly when the
period is not the last. -/
theorem claim_c4_formatTAFForecast :
    (∀ (f : TAFForecast) (isFirst : Bool), formatTAFForecast f isFirst false =
      (if isFirst then [] else sepLine) ++
        (joinStr [nlChar] (specPeriodLines f) ++ [nlChar])) ∧
    (∀ (f : TAFForecast) (isFirst : Bool), formatTAFForecast f isFirst true =
      (if isFirst then [] else sepLine) ++ joinStr [nlChar] (specPeriodLines f)) ∧
    (∀ f : TAFForecast, f.fcstChange = lit "FM" → changeText f = lit "From  ") ∧
    (∀ f : TAFForecast, f.fcstChange = lit "TEMPO" → changeText f = lit "Tempo ") ∧
    (∀ f : TAFForecast, f.fcstChange = lit "BECMG" → changeText f = lit "Becmg ") ∧
    (∀ (f : TAFForecast) (n : Int), f.fcstChange = lit "PROB" →
      f.probability = some n → changeText f = lit "Prob" ++ padRightStr (intStr n) 2) ∧
    (∀ f : TAFForecast, f.fcstChange = lit "PROB" → f.probability = none →
      changeText f = lit "Prob  ") ∧
    (∀ f : TAFForecast, periodTimeText f = changeText f ++
      fmtEpochWdayHHMM f.timeFrom ++ lit " - " ++ fmtEpochWdayHHMM f.timeTo) := by
  refine ⟨fun f isFirst => ?_, fun f isFirst => ?_, fun f h => ?_, fun f h => ?_,
    fun f h => ?_, fun f n h hp => ?_, fun f h hp => ?_, fun f => rfl⟩
  · rw [tafPeriod_notLast, blocksText_eq_join _ (by simp [specPeriodLines])]
  · rw [tafPeriod_last, specPeriodRender]
  · rw [changeText, h, if_pos rfl]
  · rw [changeText, h, if_neg (by decide), if_pos rfl]
  · rw [changeText, h, if_neg (by decide), if_neg (by decide), if_pos rfl]
  · rw [changeText, h, hp, if_neg (by decide), if_neg (by decide),
      if_neg (by decide), if_pos rfl]
  · rw [changeText, h, hp, if_neg (by decide), if_neg (by decide),
      if_neg (by decide), if_pos rfl]

/-- C4 witness: the prefix clauses applied to concrete periods. -/
theorem claim_c4_witness :
    changeText fExample = lit "From  " ∧
    changeText fExample2 = lit "Prob" ++ padRightStr (intStr 30) 2 :=
  ⟨claim_c4_formatTAFForecast.2.2.1 fExample (by decide),
   claim_c4_formatTAFForecast.2.2.2.2.2.1 fExample2 30 (by decide) (by decide)⟩

/-- C5: the text each entry point wraps in the box never ends with a
newline: `Decode`'s body splits into an initial part whose lines all end
with a newline and the final clouds line, which is newline-free (given
newline-free cover tokens) so the body's last character is never a newline;
and a `DecodeTAF` body with at least one period (with newline-free fields)
also never ends with a newline, whether or not the last period has clouds. -/
theorem claim_c5_no_trailing_newline :
    (∀ m : METAR, decodeBody m = (stationLinePart m.stationID m.name ++
      timeLinePart m.obsTime ++ metarMidPart m) ++ metarCloudsPart m.clouds) ∧
    (∀ m : METAR, (stationLinePart m.stationID m.name ++ timeLinePart m.obsTime ++
      metarMidPart m).getLast? = some nlChar) ∧
    (∀ m : METAR, (∀ c ∈ m.clouds, noNl c.cover) →
      noNl (metarCloudsPart m.clouds) ∧ (decodeBody m).getLast? ≠ some nlChar) ∧
    (∀ t : TAF, t.forecasts ≠ [] → (∀ f ∈ t.forecasts, noNlForecast f) →
      (decodeTAFBody t).getLast? ≠ some nlChar) :=
  ⟨fun m => rfl, decodeInit_getLast,
   fun m h => ⟨noNl_metarCloudsPart h, decodeBody_getLast m h⟩,
   decodeTAFBody_getLast⟩

/-- C5 witness: concrete METAR and TAF records (the TAF's last period has no
clouds, exercising the accumulated-text trim). -/
theorem claim_c5_witness :
    (decodeBody mExample).getLast? ≠ some nlChar ∧
    (decodeTAFBody tExample).getLast? ≠ some nlChar :=
  ⟨(claim_c5_no_trailing_newline.2.2.1 mExample (by decide)).2,
   claim_c5_no_trailing_newline.2.2.2 tExample (List.cons_ne_nil _ _) (by decide)⟩

/-- C6: `formatClouds` describes the layers in input order — each layer as
`expandCloudCover(cover)` plus " @ {base} ft" exactly when base > 0 — joins
them with ", ", returns "" on an empty list, and maps
[{SCT,2500},{BKN,5000}] to exactly "Scattered @ 2500 ft, Broken @ 5000 ft". -/
theorem claim_c6_formatClouds :
    (∀ clouds : List Cloud,
      formatClouds clouds = joinStr (lit ", ") (clouds.map cloudLayerDesc)) ∧
    (∀ c : Cloud, cloudLayerDesc c = expandCloudCover c.cover ++
      (if 0 < c.base then lit " @ " ++ intStr c.base ++ lit " ft" else [])) ∧
    formatClouds [] = [] ∧
    formatClouds [⟨lit "SCT", 2500⟩, ⟨lit "BKN", 5000⟩] =
      lit "Scattered @ 2500 ft, Broken @ 5000 ft" := by
  refine ⟨formatClouds_eq_map, fun c => ?_, rfl, by decide⟩
  rw [cloudLayerDesc]
  split
  · simp [List.append_assoc]
  · simp

/-- C7: `expandCloudCover` maps exactly the seven table entries and is the
identity on every other string. -/
theorem claim_c7_expandCloudCover :
    expandCloudCover (lit "SKC") = lit "Clear" ∧
    expandCloudCover (lit "CLR") = lit "Clear" ∧
    expandCloudCover (lit "FEW") = lit "Few" ∧
    expandCloudCover (lit "SCT") = lit "Scattered" ∧
    expandCloudCover (lit "BKN") = lit "Broken" ∧
    expandCloudCover (lit "OVC") = lit "Overcast" ∧
    expandCloudCover (lit "OVX") = lit "Obscured" ∧
    (∀ cover : Str, cover ∉ [lit "SKC", lit "CLR", lit "FEW", lit "SCT",
      lit "BKN", lit "OVC", lit "OVX"] → expandCloudCover cover = cover) := by
  refine ⟨by decide, by decide, by decide, by decide, by decide, by decide,
    by decide, fun cover h => ?_⟩
  have hk : ∀ x ∈ coverTable, x.1.data ∈ [lit "SKC", lit "CLR", lit "FEW",
      lit "SCT", lit "BKN", lit "OVC", lit "OVX"] := by decide
  have hn : coverTable.find? (fun p => p.1.data = cover) = none :=
    List.find?_eq_none.mpr (fun x hx => by
      intro heq
      exact h ((of_decide_eq_true heq) ▸ hk x hx))
  simp only [expandCloudCover, hn]

/-- C7 witness: an unknown code is returned unchanged. -/
theorem claim_c7_witness : expandCloudCover (lit "UNKNOWN") = lit "UNKNOWN" :=
  claim_c7_expandCloudCover.2.2.2.2.2.2.2 (lit "UNKNOWN") (by decide)

/-- C8: the decoder/formatter core is total — every function is a total
Lean function here, with the documented fallbacks: zero speed gives "Calm",
an absent visibility gives "Unknown", unknown weather chunks pass through
verbatim, absent optional TAF fields produce no line at all, and both entry
points always produce a non-empty string, never an error. -/
theorem claim_c8_totality :
    (∀ (dir : GoVal) (gust : Int), formatWind dir 0 gust = lit "Calm") ∧
    formatVisibility .null = lit "Unknown" ∧
    (∀ (c1 c2 : Char) (rest : Str), weatherLookup [c1, c2] = none →
      chunkWeather (c1 :: c2 :: rest) = [c1, c2] :: chunkWeather rest) ∧
    (∀ f : TAFForecast, f.windSpeed ≤ 0 → windLinePart f = []) ∧
    (∀ f : TAFForecast, f.visibility = .null → visLinePart f = []) ∧
    (∀ f : TAFForecast, f.weather = [] → wxLinePart f = []) ∧
    (∀ m : METAR, decodeBody m ≠ []) ∧
    (∀ t : TAF, decodeTAFBody t ≠ []) := by
  refine ⟨fun dir gust => by simp [formatWind], rfl,
    fun c1 c2 rest h => by simp [chunkWeather, h],
    fun f h => by rw [windLinePart, if_neg (by omega)],
    fun f h => by simp [visLinePart, h, tafVisPresent],
    fun f h => by simp [wxLinePart, h],
    fun m he => ?_, fun t he => ?_⟩
  · rw [decodeBody] at he
    exact metarCloudsPart_ne_nil _ (List.append_eq_nil.mp he).2
  · rw [decodeTAFBody] at he
    have h1 := (List.append_eq_nil.mp (List.append_eq_nil.mp
      (List.append_eq_nil.mp he).1).1).1
    exact absurd h1 (by simp [stationLinePart, List.append_eq_nil])

/-- C8 witness: the fallbacks at concrete inputs. -/
theorem claim_c8_witness :
    formatWind .null 0 5 = lit "Calm" ∧
    chunkWeather ['Q', 'Q'] = [['Q', 'Q']] ∧
    windLinePart { fExample with windSpeed := 0 } = [] :=
  ⟨claim_c8_totality.1 .null 5,
   claim_c8_totality.2.2.1 'Q' 'Q' [] (by decide),
   claim_c8_totality.2.2.2.1 { fExample with windSpeed := 0 } (by decide)⟩

/-- C9: `Decode` emits the observation-time line iff `ObsTime > 0` — the
line is the empty string exactly when the timestamp is non-positive
(negative epochs included) — and when emitted it is the "Time" line carrying
the epoch rendered in UTC as "DD Mon YYYY HH:MM" plus " UTC"
(e.g. 1704200000 renders as "02 Jan 2024 12:53"). -/
theorem claim_c9_obsTime :
    (∀ m : METAR, decodeBody m = stationLinePart m.stationID m.name ++
      timeLinePart m.obsTime ++ metarMidPart m ++ metarCloudsPart m.clouds) ∧
    (∀ o : Int, timeLinePart o = [] ↔ o ≤ 0) ∧
    (∀ o : Int, 0 < o →
      timeLinePart o = formatLine (lit "Time") (fmtEpochFull o ++ lit " UTC")) ∧
    fmtEpochFull 1704200000 = lit "02 Jan 2024 12:53" :=
  ⟨fun m => rfl, timeLinePart_eq_nil_iff,
   fun o h => by rw [timeLinePart, if_pos h], by decide⟩

/-- C9 witness: a positive epoch emits the rendered "Time" line; a negative
epoch suppresses it. -/
theorem claim_c9_witness :
    timeLinePart 1704200000 =
      formatLine (lit "Time") (lit "02 Jan 2024 12:53 UTC") ∧
    timeLinePart (-5) = [] := by
  constructor
  · rw [claim_c9_obsTime.2.2.1 1704200000 (by norm_num)]
    decide
  · exact (claim_c9_obsTime.2.1 (-5)).mpr (by norm_num)

/-- C10: every change indicator other than "FM", "TEMPO", "BECMG", "PROB" —
the empty string and unrecognized values included — renders the period
header with the "Init" prefix, never an error and never an echo of the
unknown indicator. -/
theorem claim_c10_defaultInit :
    ∀ f : TAFForecast,
      f.fcstChange ∉ [lit "FM", lit "TEMPO", lit "BECMG", lit "PROB"] →
      changeText f = lit "Init  " ∧
      ∀ isFirst : Bool, formatTAFForecast f isFirst false =
        (if isFirst then [] else sepLine) ++
          (joinStr [nlChar] ((lit "Init  " ++ fmtEpochWdayHHMM f.timeFrom ++
            lit " - " ++ fmtEpochWdayHHMM f.timeTo) :: specOptLines f) ++ [nlChar]) := by
  intro f h
  simp only [List.mem_cons, List.mem_singleton, not_or] at h
  obtain ⟨h1, h2, h3, h4, -⟩ := h
  have hct : changeText f = lit "Init  " := by
    rw [changeText, if_neg h1, if_neg h2, if_neg h3, if_neg h4]
  refine ⟨hct, fun isFirst => ?_⟩
  rw [tafPeriod_notLast, blocksText_eq_join _ (by simp [specPeriodLines])]
  have hpt : specPeriodLines f = (lit "Init  " ++ fmtEpochWdayHHMM f.timeFrom ++
      lit " - " ++ fmtEpochWdayHHMM f.timeTo) :: specOptLines f := by
    show periodTimeText f :: specOptLines f = _
    rw [periodTimeText, hct]
  rw [hpt]

/-- C10 witness: an unrecognized indicator renders with the "Init" prefix. -/
theorem claim_c10_witness : changeText fExampleInit = lit "Init  " :=
  (claim_c10_defaultInit fExampleInit (by decide)).1

end GoMetar
